import Mathlib

/-!
Shallow embedding of `Memory_Pool.h` (size-class memory pool with a
thread-local cache, dispatching allocator, statistics and an RAII wrapper).

Modelling conventions:
* machine `size_t` values are `Nat` taken modulo `2^64` (`add64` / `sub64`);
* addresses are `Nat`, the null pointer is `0`; the platform allocator
  (`std::malloc`) is an external oracle handing out fresh, disjoint regions
  and may be told to fail via its `ok` stream;
* byte memory is `mem : Nat → Nat`; `std::memcpy` copies a range;
* block headers live at `user_ptr - header_size`; since that offset is a
  fixed constant, the model keys the header map by the user pointer itself;
  reading a header that was never written is undefined behaviour, rendered
  as the `none` result of a partial (Option-valued) operation;
* a single thread is modelled, so the thread-local cache is one
  `tls : Nat → List Nat` (index = size class, list head = vector back);
* the default configuration is embedded: alignment 8 (hence a 32-byte
  header: two `size_t`, a padded `bool`, a pointer), TLS enabled with
  per-class capacity 16, classes 8..1024.
-/

/-- Word size of `size_t`: all counters wrap modulo this. -/
def W64 : Nat := 18446744073709551616

/-- `size_t` addition (wraps modulo `2^64`). -/
def add64 (a b : Nat) : Nat := (a + b) % W64

/-- `size_t` subtraction (wraps modulo `2^64`). -/
def sub64 (a b : Nat) : Nat := (a + (W64 - b % W64)) % W64

/-- `(n + a - 1) & ~(a - 1)` for a power-of-two `a`: round `n` up to a
multiple of the alignment `a`. -/
def align_up (n a : Nat) : Nat := (n + a - 1) - (n + a - 1) % a

/-- `Memory_Block_Header`: metadata preceding every pool-carved block.
`pool_ptr` is the identity of the owning `Fixed_Size_Pool`, rendered as the
pool's index (`none` models a null pool pointer). -/
structure Header where
  size : Nat
  block_size : Nat
  in_use : Bool
  pool_ptr : Option Nat
deriving DecidableEq, Repr

/-- The mutable fields of one `Fixed_Size_Pool`. -/
structure PoolState where
  block_size : Nat
  free_blocks : List Nat
  current_used : Nat
  current_free : Nat
  total_allocated : Nat
deriving DecidableEq, Repr

/-- `Memory_Pool::PoolStats`: the global atomic counters. -/
structure Stats where
  total_allocated : Nat
  total_freed : Nat
  current_used : Nat
  current_free : Nat
  alloc_count : Nat
  free_count : Nat
  fragment_count : Nat
deriving DecidableEq, Repr

/-- The platform allocator, an external oracle: `next` is the next fresh
address, `calls` counts `malloc` invocations, and `ok n` tells whether the
`n`-th call succeeds. -/
structure Platform where
  next : Nat
  calls : Nat
  ok : Nat → Bool

/-- `std::malloc sz`: fresh disjoint region on success, `none` on failure. -/
def plat_malloc (p : Platform) (sz : Nat) : Option Nat × Platform :=
  if p.ok p.calls then
    (some p.next, { next := p.next + sz, calls := p.calls + 1, ok := p.ok })
  else
    (none, { next := p.next, calls := p.calls + 1, ok := p.ok })

/-- The whole allocator state: the eight `Fixed_Size_Pool`s, the calling
thread's `Thread_Local_Cache`, global statistics, the shutdown flag, the
header map, byte memory and the platform oracle. -/
structure MPState where
  pools : Nat → PoolState
  tls : Nat → List Nat
  stats : Stats
  shutdown : Bool
  enable_tls : Bool
  tls_cache_size : Nat
  alignment : Nat
  headers : Nat → Option Header
  mem : Nat → Nat
  plat : Platform

/-- `PoolConfig::small_block_sizes`: the fixed table of size classes. -/
def small_block_sizes : List Nat := [8, 16, 32, 64, 128, 256, 512, 1024]

/-- The byte size of class `i` (out-of-range indices read as 0, never used). -/
def class_size (i : Nat) : Nat := small_block_sizes.getD i 0

/-- The loop body of `Memory_Pool::find_pool_index`. -/
def find_idx_aux (size : Nat) : List Nat → Nat → Option Nat
  | [], _ => none
  | b :: rest, i => if size ≤ b then some i else find_idx_aux size rest (i + 1)

/-- `Memory_Pool::find_pool_index`: first class whose size is ≥ the request;
`none` models the C++ return value `-1` (use the system malloc). -/
def find_pool_index (size : Nat) : Option Nat :=
  find_idx_aux size small_block_sizes 0

/-- `(sizeof(Memory_Block_Header) + alignment - 1) & ~(alignment - 1)`:
the header occupies 32 bytes on LP64 (8 + 8 + 1-plus-padding + 8). -/
def headerSize (s : MPState) : Nat := align_up 32 s.alignment

/-- `Memory_Pool::allocate_from_tls`: pop the back of the calling thread's
cached vector for that class, if any. -/
def allocate_from_tls (s : MPState) (i : Nat) : Option Nat × MPState :=
  if s.enable_tls = false ∨ 8 ≤ i then (none, s)
  else
    match s.tls i with
    | [] => (none, s)
    | p :: rest => (some p, { s with tls := Function.update s.tls i rest })

/-- `Memory_Pool::return_to_tls`: push onto the thread cache when it is
below capacity; report rejection otherwise. -/
def return_to_tls (s : MPState) (i : Nat) (ptr : Nat) : Bool × MPState :=
  if s.enable_tls = false ∨ 8 ≤ i ∨ ptr = 0 then (false, s)
  else if (s.tls i).length < s.tls_cache_size then
    (true, { s with tls := Function.update s.tls i (ptr :: s.tls i) })
  else (false, s)

/-- `Fixed_Size_Pool::allocate` for pool `i`: pop the free-list front, or
carve `header_size + block_size` fresh bytes from the platform allocator and
write the block header. The free-list fast path does not touch the header. -/
def pool_allocate (s : MPState) (i : Nat) : Option Nat × MPState :=
  let p := s.pools i
  match p.free_blocks with
  | ptr :: rest =>
      let pNew : PoolState :=
        { p with free_blocks := rest,
                 current_used := add64 p.current_used 1,
                 current_free := sub64 p.current_free 1 }
      (some ptr, { s with pools := Function.update s.pools i pNew })
  | [] =>
      let hs := headerSize s
      match plat_malloc s.plat (hs + p.block_size) with
      | (none, pl) => (none, { s with plat := pl })
      | (some raw, pl) =>
          let user := raw + hs
          let pNew : PoolState :=
            { p with current_used := add64 p.current_used 1,
                     total_allocated := add64 p.total_allocated 1 }
          let hNew : Header := ⟨p.block_size, p.block_size, true, some i⟩
          (some user,
            { s with plat := pl,
                     headers := Function.update s.headers user (some hNew),
                     pools := Function.update s.pools i pNew })

/-- `Fixed_Size_Pool::deallocate` for pool `i`: validate the header
(`pool_ptr == this && in_use`), then mark free and push onto the free list;
invalid frees are silently ignored. Reading a header that was never written
is undefined behaviour (`none`). -/
def pool_deallocate (s : MPState) (i : Nat) (ptr : Nat) : Option MPState :=
  if ptr = 0 then some s
  else
    match s.headers ptr with
    | none => none
    | some h =>
      if h.pool_ptr ≠ some i ∨ h.in_use = false then some s
      else
        let p := s.pools i
        let pNew : PoolState :=
          { p with free_blocks := p.free_blocks ++ [ptr],
                   current_used := sub64 p.current_used 1,
                   current_free := add64 p.current_free 1 }
        let hNew : Header := { h with in_use := false }
        some { s with headers := Function.update s.headers ptr (some hNew),
                      pools := Function.update s.pools i pNew }

/-- `Memory_Pool::allocate`: reject size 0 or shutdown, bump `alloc_count`,
then TLS fast path, pool slow path, or — for sizes above the largest class —
a direct `std::malloc(size)` that writes no header. -/
def mp_allocate (s : MPState) (size : Nat) : Option Nat × MPState :=
  if s.shutdown = true ∨ size = 0 then (none, s)
  else
    let st0 : Stats := { s.stats with alloc_count := add64 s.stats.alloc_count 1 }
    let s1 : MPState := { s with stats := st0 }
    match find_pool_index size with
    | some i =>
      match allocate_from_tls s1 i with
      | (some ptr, s2) =>
          let st : Stats :=
            { s2.stats with
              total_allocated := add64 s2.stats.total_allocated (class_size i),
              current_used := add64 s2.stats.current_used (class_size i) }
          (some ptr, { s2 with stats := st })
      | (none, s2) =>
        match pool_allocate s2 i with
        | (some ptr, s3) =>
            let st : Stats :=
              { s3.stats with
                total_allocated := add64 s3.stats.total_allocated (class_size i),
                current_used := add64 s3.stats.current_used (class_size i),
                current_free := sub64 s3.stats.current_free (class_size i) }
            (some ptr, { s3 with stats := st })
        | (none, s3) => (none, s3)
    | none =>
      match plat_malloc s1.plat size with
      | (some raw, pl) =>
          let st : Stats :=
            { s1.stats with
              total_allocated := add64 s1.stats.total_allocated size,
              current_used := add64 s1.stats.current_used size }
          (some raw, { s1 with plat := pl, stats := st })
      | (none, pl) => (none, { s1 with plat := pl })

/-- The fall-through branch of `Memory_Pool::deallocate`: treat the block as
a system-malloc block — `std::free(header)` and byte statistics from
`header->size`. -/
def mp_deallocate_large (s : MPState) (ptr : Nat) (h : Header) : MPState :=
  let st : Stats :=
    { s.stats with
      total_freed := add64 s.stats.total_freed h.size,
      current_used := sub64 s.stats.current_used h.size }
  { s with headers := Function.update s.headers ptr none, stats := st }

/-- `Memory_Pool::deallocate`: no-op on null, bump `free_count`, read the
header (undefined behaviour if it was never written), then TLS put, pool
return, or the system-free fall-through. A TLS-accepted return updates no
global statistic beyond `free_count` and leaves the header untouched. -/
def mp_deallocate (s : MPState) (ptr : Nat) : Option MPState :=
  if ptr = 0 then some s
  else
    let st0 : Stats := { s.stats with free_count := add64 s.stats.free_count 1 }
    let s1 : MPState := { s with stats := st0 }
    match s1.headers ptr with
    | none => none
    | some h =>
      if h.pool_ptr ≠ none then
        match find_pool_index h.block_size with
        | some i =>
          if h.pool_ptr = some i then
            match return_to_tls s1 i ptr with
            | (true, s2) => some s2
            | (false, s2) =>
              match pool_deallocate s2 i ptr with
              | none => none
              | some s3 =>
                let st : Stats :=
                  { s3.stats with
                    total_freed := add64 s3.stats.total_freed (class_size i),
                    current_used := sub64 s3.stats.current_used (class_size i),
                    current_free := add64 s3.stats.current_free (class_size i) }
                some { s3 with stats := st }
          else some (mp_deallocate_large s1 ptr h)
        | none => some (mp_deallocate_large s1 ptr h)
      else some (mp_deallocate_large s1 ptr h)

/-- `std::memcpy dst src n` over the byte memory (reads the pre-call image). -/
def memcpy (s : MPState) (dst src n : Nat) : MPState :=
  { s with mem := fun a => if dst ≤ a ∧ a < dst + n then s.mem (src + (a - dst)) else s.mem a }

/-- `Memory_Pool::reallocate`: null degenerates to `allocate`; keep the same
address when `new_size ≤ header->size` and `new_size > header->size / 2`;
otherwise allocate fresh, copy `min(old, new)` bytes and free the old block.
A failed fresh allocation returns the null result and leaves the old block
alone. -/
def mp_reallocate (s : MPState) (ptr new_size : Nat) : Option (Option Nat × MPState) :=
  if ptr = 0 then some (mp_allocate s new_size)
  else
    match s.headers ptr with
    | none => none
    | some h =>
      if new_size ≤ h.size ∧ h.size / 2 < new_size then some (some ptr, s)
      else
        match mp_allocate s new_size with
        | (none, s1) => some (none, s1)
        | (some np, s1) =>
          let s2 := memcpy s1 np ptr (min h.size new_size)
          match mp_deallocate s2 ptr with
          | none => none
          | some s3 => some (some np, s3)

/-- `Memory_Pool_RAII` constructor: allocate, and throw
(`std::runtime_error`, rendered as `Except.error`) when that fails; on
success the handle holds the post-allocation state, pointer and size. -/
def raii_construct (s : MPState) (size : Nat) : Except Unit (MPState × Nat × Nat) :=
  match mp_allocate s size with
  | (none, _) => Except.error ()
  | (some p, s1) => Except.ok (s1, p, size)

/-- `Memory_Pool_RAII` destructor: deallocate the held pointer if non-null. -/
def raii_destroy (s : MPState) (p : Nat) : Option MPState :=
  if p = 0 then some s else mp_deallocate s p

/-- A full lexical scope of a `Memory_Pool_RAII`: construct, then destroy on
scope exit (the class is non-copyable and non-movable, so this is the one
and only release). -/
def raii_scope (s : MPState) (size : Nat) : Except Unit (Option MPState) :=
  match raii_construct s size with
  | Except.error e => Except.error e
  | Except.ok (s1, p, _) => Except.ok (raii_destroy s1 p)

/-- One `Fixed_Size_Pool` as the `Memory_Pool` constructor builds it. -/
def initPool (bs : Nat) : PoolState :=
  { block_size := align_up bs 8, free_blocks := [],
    current_used := 0, current_free := 0, total_allocated := 0 }

/-- A freshly constructed `Memory_Pool` with the default configuration. -/
def initState : MPState :=
  { pools := fun i => initPool (class_size i),
    tls := fun _ => [],
    stats := ⟨0, 0, 0, 0, 0, 0, 0⟩,
    shutdown := false, enable_tls := true, tls_cache_size := 16, alignment := 8,
    headers := fun _ => none, mem := fun _ => 0,
    plat := { next := 1, calls := 0, ok := fun _ => true } }

/-! ## Shared scenario states and general lemmas -/

/-- State after the first `allocate(8)` on a fresh pool (block at address 33). -/
def sAfterAlloc8 : MPState := (mp_allocate initState 8).2

/-- State after the first `allocate(9)` on a fresh pool: the request is
rounded into the 16-byte class, the block sits at address 33. -/
def sAfterAlloc9 : MPState := (mp_allocate initState 9).2

/-- `find_pool_index` unfolded over the concrete class table. -/
lemma find_pool_index_eq (size : Nat) :
    find_pool_index size =
      if size ≤ 8 then some 0 else if size ≤ 16 then some 1
      else if size ≤ 32 then some 2 else if size ≤ 64 then some 3
      else if size ≤ 128 then some 4 else if size ≤ 256 then some 5
      else if size ≤ 512 then some 6 else if size ≤ 1024 then some 7
      else none := by
  simp only [find_pool_index, small_block_sizes, find_idx_aux]

/-- A found pool index is always in range. -/
lemma find_pool_index_lt8 {size i : Nat} (h : find_pool_index size = some i) : i < 8 := by
  rw [find_pool_index_eq] at h
  split_ifs at h <;> simp_all <;> omega

/-- C7: for every size, `find_pool_index` returns the index of the smallest
size class whose boundary is ≥ the size, and returns none (the C++ `-1`)
exactly when the size exceeds the largest class boundary 1024. -/
theorem find_pool_index_spec (size : Nat) :
    (find_pool_index size = none ↔ 1024 < size) ∧
    (∀ i, find_pool_index size = some i →
      size ≤ class_size i ∧ ∀ j, j < i → class_size j < size) := by
  constructor
  · rw [find_pool_index_eq]
    split_ifs <;> simp_all <;> omega
  · intro i hi
    rw [find_pool_index_eq] at hi
    split_ifs at hi <;>
      (cases hi
       constructor
       · simp_all [class_size, small_block_sizes]
       · intro j hj
         interval_cases j <;> simp_all [class_size, small_block_sizes])

/-- C7 witness: at size 64 the returned class is index 3 (boundary 64), all
smaller classes are below 64, and the none-case biconditional holds. -/
theorem find_pool_index_spec_witness :
    (find_pool_index 64 = none ↔ 1024 < 64) ∧
    (64 ≤ class_size 3 ∧ ∀ j, j < 3 → class_size j < 64) :=
  ⟨(find_pool_index_spec 64).1, (find_pool_index_spec 64).2 3 (by decide)⟩

/-- C6: a zero-size request, or any request while the allocator is shut
down, yields the null result immediately, with the state unchanged (no
exception, no statistics update). -/
theorem allocate_rejects_invalid (s : MPState) (size : Nat)
    (h : size = 0 ∨ s.shutdown = true) :
    mp_allocate s size = (none, s) := by
  rcases h with h | h <;> simp [mp_allocate, h]

/-- C6 witness: `allocate(0)` on the fresh pool returns null and leaves the
state untouched. -/
theorem allocate_rejects_invalid_witness :
    (0 = 0 ∨ initState.shutdown = true) ∧ mp_allocate initState 0 = (none, initState) :=
  ⟨Or.inl rfl, allocate_rejects_invalid initState 0 (Or.inl rfl)⟩

/-- C1, evaluated on the code: on a fresh pool, `allocate(64)` returns
address 33 and `deallocate` of it is accepted by the thread cache, so both
counters do reach 1 but `current_used` stays at 64 instead of returning to
its pre-call value 0 — the TLS-accepted path skips the statistics update. -/
theorem alloc_dealloc_stats_eval :
    initState.stats.current_used = 0 ∧
    (mp_allocate initState 64).1 = some 33 ∧
    ((mp_deallocate (mp_allocate initState 64).2 33).map
      (fun s => s.stats.alloc_count)) = some 1 ∧
    ((mp_deallocate (mp_allocate initState 64).2 33).map
      (fun s => s.stats.free_count)) = some 1 ∧
    ((mp_deallocate (mp_allocate initState 64).2 33).map
      (fun s => s.stats.current_used)) = some 64 :=
  ⟨rfl, rfl, rfl, rfl, rfl⟩

/-- C2, evaluated on the code: `allocate(2048)` (beyond the largest class)
returns the raw `malloc` address 1 and writes no block header at all, so a
later `deallocate` of that address reads a header that was never written —
undefined behaviour (`none` in the model) instead of a clean system free. -/
theorem large_alloc_no_header_eval :
    (mp_allocate initState 2048).1 = some 1 ∧
    ((mp_allocate initState 2048).2.headers 1) = none ∧
    mp_deallocate (mp_allocate initState 2048).2 1 = none :=
  ⟨rfl, rfl, rfl⟩

/-- C3, evaluated on the code: after `allocate(8)` (address 33) and one
`deallocate`, a second `deallocate` of the same address is not a no-op: it
bumps `free_count` from 1 to 2 and pushes address 33 into the thread cache a
second time, leaving the duplicate entry `[33, 33]`. -/
theorem double_free_eval :
    (mp_allocate initState 8).1 = some 33 ∧
    ((mp_deallocate sAfterAlloc8 33).map
      (fun s => (s.stats.free_count, s.tls 0))) = some (1, [33]) ∧
    (((mp_deallocate sAfterAlloc8 33).bind (fun s => mp_deallocate s 33)).map
      (fun s => (s.stats.free_count, s.tls 0))) = some (2, [33, 33]) :=
  ⟨rfl, rfl, rfl⟩

/-- C9: on a fresh allocator the first small allocation is carved from the
platform allocator (one malloc call, pool total rises to 1), and the global
`current_free` counter is decremented from 0 by the class size, wrapping
modulo `2^64` to `2^64 - class_size` — within 1024 of the `size_t` maximum. -/
theorem first_small_alloc_wraps (size i : Nat) (hnz : size ≠ 0)
    (hfind : find_pool_index size = some i) :
    (mp_allocate initState size).1 = some 33 ∧
    (mp_allocate initState size).2.stats.current_free = W64 - class_size i ∧
    (mp_allocate initState size).2.plat.calls = 1 ∧
    ((mp_allocate initState size).2.pools i).total_allocated = 1 ∧
    W64 - 1024 ≤ W64 - class_size i := by
  have hi : i < 8 := find_pool_index_lt8 hfind
  interval_cases i <;>
    simp_all [mp_allocate, allocate_from_tls, pool_allocate, plat_malloc,
      headerSize, align_up, initState, initPool, class_size, small_block_sizes,
      add64, sub64, W64]

/-- C9 witness: the first `allocate(64)` on the fresh pool lands in class 3
and leaves `current_free` at `2^64 - 64`. -/
theorem first_small_alloc_wraps_witness :
    (64 : Nat) ≠ 0 ∧ find_pool_index 64 = some 3 ∧
    ((mp_allocate initState 64).1 = some 33 ∧
     (mp_allocate initState 64).2.stats.current_free = W64 - class_size 3 ∧
     (mp_allocate initState 64).2.plat.calls = 1 ∧
     ((mp_allocate initState 64).2.pools 3).total_allocated = 1 ∧
     W64 - 1024 ≤ W64 - class_size 3) :=
  ⟨by decide, by decide, first_small_alloc_wraps 64 3 (by decide) (by decide)⟩

/-- C10: a deallocation accepted by the thread cache succeeds and changes
nothing except pushing the address onto the calling thread's per-class stash
and bumping `free_count`: headers (so `in_use` stays as it was), every pool
(free lists and counters), byte memory, and every other global statistic are
untouched. -/
theorem tls_dealloc_frame (s : MPState) (ptr : Nat) (h : Header) (i : Nat)
    (hptr : ptr ≠ 0)
    (hhdr : s.headers ptr = some h)
    (hidx : find_pool_index h.block_size = some i)
    (hown : h.pool_ptr = some i)
    (htls : s.enable_tls = true)
    (hroom : (s.tls i).length < s.tls_cache_size) :
    ((mp_deallocate s ptr).map (fun s2 => s2.headers)) = some s.headers ∧
    ((mp_deallocate s ptr).map (fun s2 => s2.pools)) = some s.pools ∧
    ((mp_deallocate s ptr).map (fun s2 => s2.mem)) = some s.mem ∧
    ((mp_deallocate s ptr).map (fun s2 => s2.tls)) =
      some (Function.update s.tls i (ptr :: s.tls i)) ∧
    ((mp_deallocate s ptr).map (fun s2 => s2.stats)) =
      some ({ s.stats with free_count := add64 s.stats.free_count 1 }) := by
  have hi : i < 8 := find_pool_index_lt8 hidx
  have hi8 : ¬ 8 ≤ i := by omega
  simp [mp_deallocate, hptr, hhdr, hown, hidx, return_to_tls, htls, hi8, hroom]

/-- C10 witness: freeing the block at 33 after the first `allocate(8)` is
TLS-accepted and exhibits exactly the stated frame. -/
theorem tls_dealloc_frame_witness :
    sAfterAlloc8.headers 33 = some ⟨8, 8, true, some 0⟩ ∧
    (sAfterAlloc8.tls 0).length < sAfterAlloc8.tls_cache_size ∧
    (((mp_deallocate sAfterAlloc8 33).map (fun s2 => s2.headers)) = some sAfterAlloc8.headers ∧
     ((mp_deallocate sAfterAlloc8 33).map (fun s2 => s2.pools)) = some sAfterAlloc8.pools ∧
     ((mp_deallocate sAfterAlloc8 33).map (fun s2 => s2.mem)) = some sAfterAlloc8.mem ∧
     ((mp_deallocate sAfterAlloc8 33).map (fun s2 => s2.tls)) =
       some (Function.update sAfterAlloc8.tls 0 (33 :: sAfterAlloc8.tls 0)) ∧
     ((mp_deallocate sAfterAlloc8 33).map (fun s2 => s2.stats)) =
       some ({ sAfterAlloc8.stats with free_count := add64 sAfterAlloc8.stats.free_count 1 })) :=
  ⟨rfl, by decide,
   tls_dealloc_frame sAfterAlloc8 33 ⟨8, 8, true, some 0⟩ 0
     (by decide) rfl (by decide) rfl rfl (by decide)⟩

/-- A thread-cache miss leaves the state untouched. -/
lemma allocate_from_tls_none {s s2 : MPState} {i : Nat}
    (h : allocate_from_tls s i = (none, s2)) : s2 = s := by
  unfold allocate_from_tls at h
  split_ifs at h
  · injection h with h1 h2; exact h2.symm
  · rcases hl : s.tls i with _ | ⟨p, rest⟩ <;> rw [hl] at h <;> simp_all

/-- A failed pool allocation touches only the platform oracle. -/
lemma pool_allocate_none {s s2 : MPState} {i : Nat}
    (h : pool_allocate s i = (none, s2)) :
    s2.headers = s.headers ∧ s2.mem = s.mem ∧ s2.tls = s.tls ∧
    s2.pools = s.pools ∧ s2.stats = s.stats := by
  simp only [pool_allocate] at h
  rcases hl : (s.pools i).free_blocks with _ | ⟨p, rest⟩ <;> rw [hl] at h
  · rcases hm : plat_malloc s.plat (headerSize s + (s.pools i).block_size) with ⟨r, pl⟩
    rw [hm] at h
    cases r with
    | none =>
        injection h with h1 h2
        rw [← h2]
        exact ⟨rfl, rfl, rfl, rfl, rfl⟩
    | some raw => simp at h
  · simp at h

/-- A failed `Memory_Pool::allocate` leaves headers, memory, the thread
cache and every pool untouched (only statistics and the platform oracle may
have moved). -/
lemma mp_allocate_none_frame {s s2 : MPState} {n : Nat}
    (h : mp_allocate s n = (none, s2)) :
    s2.headers = s.headers ∧ s2.mem = s.mem ∧ s2.tls = s.tls ∧ s2.pools = s.pools := by
  simp only [mp_allocate] at h
  split_ifs at h
  · injection h with h1 h2; rw [← h2]; exact ⟨rfl, rfl, rfl, rfl⟩
  · split at h
    · -- a size class was found
      split at h
      · -- thread-cache hit: the result is a some, contradiction
        simp at h
      · -- thread-cache miss
        rename_i heqtls
        split at h
        · -- pool hit: the result is a some, contradiction
          simp at h
        · -- pool miss
          rename_i heqpool
          injection h with h1 h2
          have hst := allocate_from_tls_none heqtls
          have hfr := pool_allocate_none heqpool
          rw [h2, hst] at hfr
          exact ⟨hfr.1, hfr.2.1, hfr.2.2.1, hfr.2.2.2.1⟩
    · -- no size class: direct malloc
      split at h
      · simp at h
      · injection h with h1 h2
        rw [← h2]
        exact ⟨rfl, rfl, rfl, rfl⟩

/-- C5: when the fresh allocation inside `reallocate` fails (null result in
the pair), the old block is left entirely unchanged and still owned by the
caller: headers (so the old block is not freed and stays in use as before),
byte memory, the thread cache and every pool free list are exactly as before
the call. -/
theorem realloc_fail_nondestructive (s : MPState) (ptr new_size : Nat) (s1 : MPState)
    (hptr : ptr ≠ 0)
    (hres : mp_reallocate s ptr new_size = some (none, s1)) :
    s1.headers = s.headers ∧ s1.mem = s.mem ∧ s1.tls = s.tls ∧ s1.pools = s.pools := by
  simp only [mp_reallocate] at hres
  rw [if_neg hptr] at hres
  split at hres
  · simp at hres
  · split_ifs at hres
    · simp at hres
    · split at hres
      · -- fresh allocation failed
        rename_i heqalloc
        injection hres with hres1
        injection hres1 with hres2 hres3
        rw [hres3] at heqalloc
        exact mp_allocate_none_frame heqalloc
      · -- fresh allocation succeeded: the result carries a some address
        split at hres <;> simp at hres

/-- The platform oracle refusing every request, installed over the
post-`allocate(9)` state: used to drive `reallocate` into its failure path. -/
def sMallocFail : MPState :=
  { sAfterAlloc9 with
    plat := { next := sAfterAlloc9.plat.next, calls := sAfterAlloc9.plat.calls,
              ok := fun _ => false } }

/-- The state `reallocate(33, 2000)` leaves behind when the platform
allocator refuses the fresh 2000-byte block. -/
def sMallocFailAfter : MPState :=
  ((mp_reallocate sMallocFail 33 2000).getD (none, sMallocFail)).2

/-- C5 witness: growing the live block at 33 to 2000 bytes under a refusing
platform allocator yields the null result, and the old block, memory, cache
and pools are untouched. -/
theorem realloc_fail_nondestructive_witness :
    (33 : Nat) ≠ 0 ∧
    mp_reallocate sMallocFail 33 2000 = some (none, sMallocFailAfter) ∧
    (sMallocFailAfter.headers = sMallocFail.headers ∧
     sMallocFailAfter.mem = sMallocFail.mem ∧
     sMallocFailAfter.tls = sMallocFail.tls ∧
     sMallocFailAfter.pools = sMallocFail.pools) :=
  ⟨by decide, rfl,
   realloc_fail_nondestructive sMallocFail 33 2000 sMallocFailAfter (by decide) rfl⟩

/-- The thread-cache allocation path only ever touches the `tls` field. -/
lemma allocate_from_tls_frame {s st : MPState} {i : Nat} {r : Option Nat}
    (h : allocate_from_tls s i = (r, st)) :
    st.mem = s.mem ∧ st.headers = s.headers ∧ st.pools = s.pools ∧
    st.stats = s.stats ∧ st.plat = s.plat := by
  unfold allocate_from_tls at h
  split_ifs at h
  · injection h with h1 h2; rw [← h2]; exact ⟨rfl, rfl, rfl, rfl, rfl⟩
  · rcases hl : s.tls i with _ | ⟨p, rest⟩ <;> rw [hl] at h <;>
      (injection h with h1 h2; rw [← h2]; exact ⟨rfl, rfl, rfl, rfl, rfl⟩)

/-- A successful thread-cache pop serves a member of the caller's stash for
an in-range class. -/
lemma allocate_from_tls_some {s st : MPState} {i p : Nat}
    (h : allocate_from_tls s i = (some p, st)) : i < 8 ∧ p ∈ s.tls i := by
  unfold allocate_from_tls at h
  split_ifs at h with hc
  · simp at h
  · push_neg at hc
    rcases hl : s.tls i with _ | ⟨q, rest⟩ <;> rw [hl] at h
    · simp at h
    · injection h with h1 h2
      injection h1 with h1
      exact ⟨by omega, by rw [← h1]; exact List.mem_cons_self q rest⟩

/-- Pool allocation never touches byte memory or the thread cache. -/
lemma pool_allocate_frame {s st : MPState} {i : Nat} {r : Option Nat}
    (h : pool_allocate s i = (r, st)) : st.mem = s.mem ∧ st.tls = s.tls := by
  simp only [pool_allocate] at h
  rcases hl : (s.pools i).free_blocks with _ | ⟨p, rest⟩ <;> rw [hl] at h
  · rcases hm : plat_malloc s.plat (headerSize s + (s.pools i).block_size) with ⟨rm, pl⟩
    rw [hm] at h
    cases rm <;> (injection h with h1 h2; rw [← h2]; exact ⟨rfl, rfl⟩)
  · injection h with h1 h2; rw [← h2]; exact ⟨rfl, rfl⟩

/-- A successful `malloc` returns exactly the oracle's next fresh address. -/
lemma plat_malloc_some {p pl : Platform} {sz a : Nat}
    (h : plat_malloc p sz = (some a, pl)) : a = p.next := by
  unfold plat_malloc at h
  split_ifs at h
  · injection h with h1 h2; injection h1 with h1; exact h1.symm
  · simp at h

/-- A successful pool allocation serves either a free-list member or a
fresh address at or beyond the platform oracle's frontier. -/
lemma pool_allocate_some_src {s st : MPState} {i p : Nat}
    (h : pool_allocate s i = (some p, st)) :
    p ∈ (s.pools i).free_blocks ∨ s.plat.next ≤ p := by
  simp only [pool_allocate] at h
  rcases hl : (s.pools i).free_blocks with _ | ⟨q, rest⟩ <;> rw [hl] at h
  · rcases hm : plat_malloc s.plat (headerSize s + (s.pools i).block_size) with ⟨rm, pl⟩
    rw [hm] at h
    cases rm with
    | none => simp at h
    | some raw =>
        injection h with h1 h2
        injection h1 with h1
        have hr := plat_malloc_some hm
        right; omega
  · injection h with h1 h2
    injection h1 with h1
    left; rw [← h1]; exact List.mem_cons_self q rest

/-- Writes by a successful pool allocation stay at the returned address:
every other header is untouched. -/
lemma pool_allocate_headers_other {s st : MPState} {i np : Nat}
    (h : pool_allocate s i = (some np, st)) :
    ∀ a, a ≠ np → st.headers a = s.headers a := by
  intro a ha
  simp only [pool_allocate] at h
  rcases hl : (s.pools i).free_blocks with _ | ⟨q, rest⟩ <;> rw [hl] at h
  · rcases hm : plat_malloc s.plat (headerSize s + (s.pools i).block_size) with ⟨rm, pl⟩
    rw [hm] at h
    cases rm with
    | none => simp at h
    | some raw =>
        injection h with h1 h2
        injection h1 with h1
        rw [← h1] at ha
        rw [← h2]
        simp [Function.update, ha]
  · injection h with h1 h2; rw [← h2]

/-- `Memory_Pool::allocate` never writes to byte memory. -/
lemma mp_allocate_mem {s s2 : MPState} {n : Nat} {r : Option Nat}
    (h : mp_allocate s n = (r, s2)) : s2.mem = s.mem := by
  simp only [mp_allocate] at h
  split_ifs at h
  · injection h with h1 h2; rw [← h2]
  · split at h
    · split at h
      · rename_i heqtls
        injection h with h1 h2; rw [← h2]
        exact (allocate_from_tls_frame heqtls).1
      · rename_i heqtls
        split at h <;> rename_i heqpool <;> injection h with h1 h2 <;> rw [← h2] <;>
          exact (pool_allocate_frame heqpool).1.trans (allocate_from_tls_frame heqtls).1
    · split at h <;> (injection h with h1 h2; rw [← h2])

/-- A successful `Memory_Pool::allocate` leaves every header other than the
returned address unchanged. -/
lemma mp_allocate_headers_other {s s2 : MPState} {n np : Nat}
    (h : mp_allocate s n = (some np, s2)) :
    ∀ a, a ≠ np → s2.headers a = s.headers a := by
  intro a ha
  simp only [mp_allocate] at h
  split_ifs at h
  · simp at h
  · split at h
    · split at h
      · rename_i heqtls
        injection h with h1 h2
        injection h1 with h1
        rw [← h2]
        exact congrFun (allocate_from_tls_frame heqtls).2.1 a
      · rename_i heqtls
        split at h
        · rename_i heqpool
          injection h with h1 h2
          injection h1 with h1
          rw [← h1] at ha
          rw [← h2]
          exact (pool_allocate_headers_other heqpool a ha).trans
            (congrFun (allocate_from_tls_frame heqtls).2.1 a)
        · simp at h
    · split at h
      · injection h with h1 h2; rw [← h2]
      · simp at h

/-- Every address a successful `Memory_Pool::allocate` can return comes from
the thread cache, some pool free list, or fresh platform memory at or beyond
the oracle frontier. -/
lemma mp_allocate_some_src {s s2 : MPState} {n np : Nat}
    (h : mp_allocate s n = (some np, s2)) :
    (∃ i, i < 8 ∧ np ∈ s.tls i) ∨ (∃ i, i < 8 ∧ np ∈ (s.pools i).free_blocks) ∨
      s.plat.next ≤ np := by
  simp only [mp_allocate] at h
  split_ifs at h
  · simp at h
  · split at h
    · rename_i i heqfind
      split at h
      · rename_i heqtls
        injection h with h1 h2
        injection h1 with h1
        obtain ⟨hi, hmem⟩ := allocate_from_tls_some heqtls
        exact Or.inl ⟨i, hi, h1 ▸ hmem⟩
      · rename_i heqtls
        split at h
        · rename_i heqpool
          injection h with h1 h2
          injection h1 with h1
          have hst := allocate_from_tls_frame heqtls
          rcases pool_allocate_some_src heqpool with hmem | hge
          · rw [hst.2.2.1] at hmem
            exact Or.inr (Or.inl ⟨i, find_pool_index_lt8 heqfind, h1 ▸ hmem⟩)
          · have hge2 : s.plat.next ≤ np := by
              rw [← h1]
              exact hst.2.2.2.2 ▸ hge
            exact Or.inr (Or.inr hge2)
        · simp at h
    · split at h
      · rename_i heqm
        injection h with h1 h2
        injection h1 with h1
        have hnx : np = s.plat.next := by
          rw [← h1]
          exact plat_malloc_some heqm
        exact Or.inr (Or.inr (le_of_eq hnx.symm))
      · simp at h

/-- `return_to_tls` only ever touches the `tls` field. -/
lemma return_to_tls_frame {s st : MPState} {i ptr : Nat} {b : Bool}
    (h : return_to_tls s i ptr = (b, st)) :
    st.mem = s.mem ∧ st.headers = s.headers ∧ st.pools = s.pools ∧ st.stats = s.stats := by
  unfold return_to_tls at h
  split_ifs at h <;> (injection h with h1 h2; rw [← h2]; exact ⟨rfl, rfl, rfl, rfl⟩)

/-- `Fixed_Size_Pool::deallocate` never writes to byte memory. -/
lemma pool_deallocate_mem {s st : MPState} {i ptr : Nat}
    (h : pool_deallocate s i ptr = some st) : st.mem = s.mem := by
  simp only [pool_deallocate] at h
  split_ifs at h
  · injection h with h1; rw [← h1]
  · split at h
    · exact absurd h (by simp)
    · split_ifs at h <;> (injection h with h1; rw [← h1])

/-- With a written header present, `Fixed_Size_Pool::deallocate` never hits
the undefined-read case. -/
lemma pool_deallocate_ne_none {s : MPState} {i ptr : Nat} {h : Header}
    (hptr : ptr ≠ 0) (hh : s.headers ptr = some h) :
    pool_deallocate s i ptr ≠ none := by
  simp only [pool_deallocate, if_neg hptr, hh]
  split_ifs <;> simp

/-- `Memory_Pool::deallocate` never writes to byte memory. -/
lemma mp_deallocate_mem {s st : MPState} {ptr : Nat}
    (h : mp_deallocate s ptr = some st) : st.mem = s.mem := by
  simp only [mp_deallocate] at h
  split_ifs at h
  · injection h with h1; rw [← h1]
  · split at h
    · exact absurd h (by simp)
    · split at h
      · split at h
        · split at h
          · split at h
            · -- TLS accepted
              rename_i heqr
              injection h with h1; rw [← h1]
              exact (return_to_tls_frame heqr).1
            · -- TLS rejected, pool return
              rename_i heqr
              split at h
              · exact absurd h (by simp)
              · rename_i heqp
                injection h with h1; rw [← h1]
                exact (pool_deallocate_mem heqp).trans (return_to_tls_frame heqr).1
          · -- owner does not match the classified pool: system-free path
            injection h with h1; rw [← h1]; rfl
        · -- no class found for the recorded block size: system-free path
          injection h with h1; rw [← h1]; rfl
      · -- null owner: system-free path
        injection h with h1; rw [← h1]; rfl

/-- With a written header present, `Memory_Pool::deallocate` always
succeeds (no undefined read). -/
lemma mp_deallocate_isSome {s : MPState} {ptr : Nat} {h : Header}
    (hptr : ptr ≠ 0) (hh : s.headers ptr = some h) :
    (mp_deallocate s ptr).isSome := by
  simp only [mp_deallocate, if_neg hptr]
  split
  · -- undefined-read case is impossible: the header is written
    rename_i heq
    have hn : s.headers ptr = none := heq
    rw [hh] at hn
    exact Option.noConfusion hn
  · rename_i hdr heq
    split
    · split
      · split
        · split
          · simp
          · rename_i s2 heqr
            split
            · rename_i heqp
              have hfr := (return_to_tls_frame heqr).2.1
              have hs2 : s2.headers ptr = some hdr := by rw [hfr]; exact heq
              exact absurd heqp (pool_deallocate_ne_none hptr hs2)
            · simp
        · simp
      · simp
    · simp

/-- C4 counterexample: `allocate(9)` returns address 33 with requested size
9, and `5` lies in the claimed same-address range for old requested size 9
(`9/2 < 5 ≤ 9`), yet `reallocate(33, 5)` returns the different address 81 —
the code compares against the header's recorded size 16 (the class size),
not the requested size. -/
theorem realloc_range_counterexample :
    (mp_allocate initState 9).1 = some 33 ∧
    (9 / 2 < 5 ∧ 5 ≤ 9) ∧
    ((mp_reallocate sAfterAlloc9 33 5).map (fun r => r.1)) = some (some 81) ∧
    ¬ ((mp_reallocate sAfterAlloc9 33 5).map (fun r => r.1)) = some (some 33) :=
  ⟨rfl, by decide, rfl, by decide⟩

/-- C4 as amended: with `S` the size recorded in the block's header (the
class size for pool blocks), `reallocate(ptr, n)` returns the same address
exactly when `S/2 < n ≤ S`; outside that range, if the fresh allocation
fails the result is null, and if it succeeds the result is a different
address whose first `min S n` bytes equal the old block's contents. The
separation hypotheses say `ptr` is a live address: not stashed in the
thread cache, not on a free list, and below the platform frontier. -/
theorem realloc_spec (s : MPState) (ptr new_size : Nat) (h : Header)
    (hptr : ptr ≠ 0)
    (hhdr : s.headers ptr = some h)
    (htls : ∀ i, i < 8 → ptr ∉ s.tls i)
    (hfree : ∀ i, i < 8 → ptr ∉ (s.pools i).free_blocks)
    (hnext : ptr < s.plat.next) :
    (new_size ≤ h.size ∧ h.size / 2 < new_size →
      mp_reallocate s ptr new_size = some (some ptr, s)) ∧
    (∀ s1, ¬(new_size ≤ h.size ∧ h.size / 2 < new_size) →
      mp_allocate s new_size = (none, s1) →
      mp_reallocate s ptr new_size = some (none, s1)) ∧
    (∀ np s1, ¬(new_size ≤ h.size ∧ h.size / 2 < new_size) →
      mp_allocate s new_size = (some np, s1) →
      np ≠ ptr ∧
      ((mp_reallocate s ptr new_size).map (fun r => r.1)) = some (some np) ∧
      (∀ k, k < min h.size new_size →
        ((mp_reallocate s ptr new_size).map (fun r => r.2.mem (np + k))) =
          some (s.mem (ptr + k)))) := by
  refine ⟨?_, ?_, ?_⟩
  · intro hc
    simp [mp_reallocate, hptr, hhdr, hc]
  · intro s1 hc halloc
    simp [mp_reallocate, hptr, hhdr, hc, halloc]
  · intro np s1 hc halloc
    have hne : np ≠ ptr := by
      rcases mp_allocate_some_src halloc with ⟨i, hi, hmem⟩ | ⟨i, hi, hmem⟩ | hge
      · intro he; exact htls i hi (he ▸ hmem)
      · intro he; exact hfree i hi (he ▸ hmem)
      · omega
    have hh2 : (memcpy s1 np ptr (min h.size new_size)).headers ptr = some h := by
      have hoth := mp_allocate_headers_other halloc ptr (Ne.symm hne)
      simpa [memcpy] using hoth.trans hhdr
    obtain ⟨s3, hd⟩ := Option.isSome_iff_exists.mp (mp_deallocate_isSome hptr hh2)
    have hres : mp_reallocate s ptr new_size = some (some np, s3) := by
      simp [mp_reallocate, hptr, hhdr, hc, halloc, hd]
    refine ⟨hne, by rw [hres]; rfl, ?_⟩
    intro k hk
    rw [hres]
    have hm3 := mp_deallocate_mem hd
    have hm1 := mp_allocate_mem halloc
    have hrange : np ≤ np + k ∧ np + k < np + min h.size new_size :=
      ⟨Nat.le_add_right _ _, by omega⟩
    simp only [Option.map_some']
    rw [hm3]
    simp only [memcpy, if_pos hrange]
    rw [Nat.add_sub_cancel_left, hm1]

/-- C4 witness: on the block from `allocate(9)` (header size 16), growing to
12 keeps address 33 (`16/2 < 12 ≤ 16`), while shrinking to 5 moves the data
to the different address 81 with the first byte preserved. -/
theorem realloc_spec_witness :
    mp_reallocate sAfterAlloc9 33 12 = some (some 33, sAfterAlloc9) ∧
    (81 : Nat) ≠ 33 ∧
    ((mp_reallocate sAfterAlloc9 33 5).map (fun r => r.1)) = some (some 81) ∧
    ((mp_reallocate sAfterAlloc9 33 5).map (fun r => r.2.mem (81 + 0))) =
      some (sAfterAlloc9.mem (33 + 0)) := by
  have H12 := realloc_spec sAfterAlloc9 33 12 ⟨16, 16, true, some 1⟩
    (by decide) rfl (by decide) (by decide) (by decide)
  have H5 := realloc_spec sAfterAlloc9 33 5 ⟨16, 16, true, some 1⟩
    (by decide) rfl (by decide) (by decide) (by decide)
  have hstep := H5.2.2 81 (mp_allocate sAfterAlloc9 5).2 (by decide) rfl
  exact ⟨H12.1 (by decide), hstep.1, hstep.2.1, hstep.2.2 0 (by decide)⟩

/-- C8: constructing a `Memory_Pool_RAII` whose underlying allocation fails
raises a hard failure (`std::runtime_error`, the `Except.error` result) and
yields no usable object; when the allocation succeeds, the handle holds the
returned block and the full scope performs exactly one release of that block
through the bound allocator — its net effect is the one `deallocate` call on
scope exit. -/
theorem raii_spec (s : MPState) (size : Nat) :
    ((mp_allocate s size).1 = none → raii_construct s size = Except.error ()) ∧
    (∀ p, (mp_allocate s size).1 = some p →
      raii_construct s size = Except.ok ((mp_allocate s size).2, p, size) ∧
      (p ≠ 0 → raii_scope s size = Except.ok (mp_deallocate (mp_allocate s size).2 p))) := by
  constructor
  · intro hn
    rcases he : mp_allocate s size with ⟨r, s1⟩
    rw [he] at hn
    simp at hn
    rw [hn] at he
    simp [raii_construct, he]
  · intro p hp
    rcases he : mp_allocate s size with ⟨r, s1⟩
    rw [he] at hp
    simp at hp
    rw [hp] at he
    refine ⟨?_, ?_⟩
    · simp [raii_construct, he]
    · intro hpz
      simp [raii_scope, raii_construct, raii_destroy, he, hpz]

/-- A `Memory_Pool` that has been shut down, used to drive the RAII wrapper
into its throwing branch. -/
def shutState : MPState := { initState with shutdown := true }

/-- C8 witness: under shutdown the constructor signals the hard failure;
on the fresh pool the 64-byte handle holds address 33 and the scope's net
effect is the single `deallocate` of 33. -/
theorem raii_spec_witness :
    (mp_allocate shutState 64).1 = none ∧
    raii_construct shutState 64 = Except.error () ∧
    (mp_allocate initState 64).1 = some 33 ∧
    raii_construct initState 64 = Except.ok ((mp_allocate initState 64).2, 33, 64) ∧
    raii_scope initState 64 = Except.ok (mp_deallocate (mp_allocate initState 64).2 33) := by
  refine ⟨rfl, (raii_spec shutState 64).1 rfl, rfl, ?_, ?_⟩
  · exact ((raii_spec initState 64).2 33 rfl).1
  · exact ((raii_spec initState 64).2 33 rfl).2 (by decide)
